import Mathlib

/-!
# Verification of the transformer benchmark harness (`benchmark.py`)

This file gives a shallow embedding, in Lean 4, of the benchmark-grid
execution and result-aggregation engine of `benchmark.py`
(`onnxruntime/python/tools/bert/benchmark.py`) and proves, or refutes,
the specification claims about it.

Modelling conventions:
* Python floats are modelled as rationals (`ℚ`); durations, latencies and
  derived statistics are exact rational numbers.
* Python's `"{:.2f}".format` string formatting is modelled by `format2`,
  rounding to the nearest multiple of 1/100.
* Fallible Python code (exceptions) is modelled with `Option`/`Except`;
  exception classes relevant to control flow are the constructors of
  `PyError`.
* External collaborators (the ONNX export, the inference sessions, the
  timer) are modelled as environment records (`OrtEnv`, `PtEnv`) whose
  fields are the values those collaborators return.
-/

/-- `"{:.2f}".format(x)`: rounding to two decimal places (the result keeps
the numerical value of the formatted string; ties are modelled with
Mathlib's `round`). -/
def format2 (q : ℚ) : ℚ := (round (q * 100) : ℚ) / 100

/-- `sum(runtimes) / float(len(runtimes))` — the arithmetic mean. -/
def listMean (l : List ℚ) : ℚ := l.sum / l.length

/-- `numpy.var(runtimes, dtype=numpy.float64)`: the population variance,
i.e. the mean of the squared deviations from the mean (`ddof = 0`). -/
def numpyVar (l : List ℚ) : ℚ :=
  ((l.map (fun x => (x - listMean l) ^ 2)).sum) / l.length

/-- `numpy.percentile(runtimes, q)` with numpy's default linear
interpolation between closest ranks: the virtual index is
`q/100 * (n-1)`; the result interpolates between the two neighbouring
order statistics. -/
def numpyPercentile (l : List ℚ) (q : ℚ) : ℚ :=
  let s := l.insertionSort (· ≤ ·)
  let pos : ℚ := q * ((l.length : ℚ) - 1) / 100
  let i : ℤ := ⌊pos⌋
  let lo := s.getD i.toNat 0
  let hi := s.getD (i.toNat + 1) lo
  lo + (pos - (i : ℚ)) * (hi - lo)

/-- The statistical fields of a result record, as produced by
`get_latency_result`. Field values carry the (exact rational) value of
the formatted strings of the Python dict. -/
structure LatencyResult where
  test_times : ℕ
  latency_variance : ℚ
  latency_90_percentile : ℚ
  latency_95_percentile : ℚ
  latency_99_percentile : ℚ
  average_latency_ms : ℚ
  QPS : ℚ
  deriving DecidableEq

/-- `get_latency_result(runtimes, batch_size)` (benchmark.py:241-254).
Returns `none` where the Python function raises `ZeroDivisionError`:
on an empty `runtimes` list (`sum(runtimes)/float(len(runtimes))`), and
when the average latency is zero (`1000.0/latency_ms`). -/
def get_latency_result (runtimes : List ℚ) (batch_size : ℤ) : Option LatencyResult :=
  if runtimes.length = 0 then none
  else
    let latency_ms := listMean runtimes * 1000
    if latency_ms = 0 then none
    else
      some { test_times := runtimes.length
             latency_variance := format2 (numpyVar runtimes * 1000)
             latency_90_percentile := format2 (numpyPercentile runtimes 90 * 1000)
             latency_95_percentile := format2 (numpyPercentile runtimes 95 * 1000)
             latency_99_percentile := format2 (numpyPercentile runtimes 99 * 1000)
             average_latency_ms := format2 latency_ms
             QPS := format2 (batch_size * (1000 / latency_ms)) }

/-- Population variance as the specification words it: the second moment
minus the squared mean. Used to compare `numpy.var` against the spec. -/
def popVariance (l : List ℚ) : ℚ :=
  (l.map (fun x => x ^ 2)).sum / l.length - (listMean l) ^ 2

/- ### Helper lemmas about the Statistics Reducer -/

theorem sum_map_sub_sq (l : List ℚ) (c : ℚ) :
    (l.map (fun x => (x - c) ^ 2)).sum
      = (l.map (fun x => x ^ 2)).sum - 2 * c * l.sum + l.length * c ^ 2 := by
  induction l with
  | nil => simp
  | cons x xs ih =>
    simp only [List.map_cons, List.sum_cons, List.length_cons, ih]
    push_cast
    ring

theorem numpyVar_eq_popVariance (l : List ℚ) (h : l ≠ []) :
    numpyVar l = popVariance l := by
  have hn : (l.length : ℚ) ≠ 0 := by
    simpa using List.length_eq_zero.not.mpr h
  unfold numpyVar popVariance listMean
  rw [sum_map_sub_sq]
  field_simp
  ring

theorem get_latency_result_eq (runtimes : List ℚ) (b : ℤ) (r : LatencyResult)
    (h : get_latency_result runtimes b = some r) :
    runtimes ≠ [] ∧ listMean runtimes ≠ 0 ∧
      r = { test_times := runtimes.length
            latency_variance := format2 (numpyVar runtimes * 1000)
            latency_90_percentile := format2 (numpyPercentile runtimes 90 * 1000)
            latency_95_percentile := format2 (numpyPercentile runtimes 95 * 1000)
            latency_99_percentile := format2 (numpyPercentile runtimes 99 * 1000)
            average_latency_ms := format2 (listMean runtimes * 1000)
            QPS := format2 (b * (1000 / (listMean runtimes * 1000))) } := by
  unfold get_latency_result at h
  split at h
  · exact absurd h (by simp)
  · next hlen =>
    simp only at h
    split at h
    · exact absurd h (by simp)
    · next hm =>
      refine ⟨fun hnil => hlen (by simp [hnil]), fun hmean => hm (by simp [hmean]), ?_⟩
      exact (Option.some_injective _ h).symm

theorem format2_mono {a b : ℚ} (h : a ≤ b) : format2 a ≤ format2 b := by
  unfold format2
  have h1 : round (a * 100) ≤ round (b * 100) := by
    rw [round_eq, round_eq]
    exact Int.floor_mono (by linarith)
  have h2 : ((round (a * 100) : ℤ) : ℚ) ≤ ((round (b * 100) : ℤ) : ℚ) := by
    exact_mod_cast h1
  linarith

theorem listMean_nonneg (l : List ℚ) (h : ∀ x ∈ l, 0 ≤ x) : 0 ≤ listMean l := by
  unfold listMean
  exact div_nonneg (List.sum_nonneg h) (by positivity)

theorem listMean_singleton (x : ℚ) : listMean [x] = x := by
  simp [listMean]

theorem numpyVar_singleton (x : ℚ) : numpyVar [x] = 0 := by
  simp [numpyVar, listMean]

theorem numpyPercentile_singleton (x q : ℚ) : numpyPercentile [x] q = x := by
  unfold numpyPercentile
  simp [List.insertionSort, List.orderedInsert]

/- ### Claims about the Statistics Reducer -/

/-- C3: for every non-empty duration sequence, the `latency_variance`
field equals the population variance of the second-scale durations
multiplied by 1000 (not by 1000²), to 2 decimal places, and
`average_latency_ms` equals the mean multiplied by 1000, to 2 decimal
places. -/
theorem latency_variance_and_mean_fields (runtimes : List ℚ) (b : ℤ) (r : LatencyResult)
    (h : get_latency_result runtimes b = some r) :
    r.latency_variance = format2 (popVariance runtimes * 1000) ∧
      r.average_latency_ms = format2 (listMean runtimes * 1000) := by
  obtain ⟨hne, -, hr⟩ := get_latency_result_eq runtimes b r h
  subst hr
  exact ⟨by rw [numpyVar_eq_popVariance runtimes hne], rfl⟩

/-- Witness for C3 at a concrete input: durations
`[0.010, 0.012, 0.011, 0.013, 0.010]` with batch size 1 (the spec's own
example: the mean is 0.0112 s so `average_latency_ms = 11.20`). -/
theorem latency_variance_and_mean_fields_witness :
    (⟨5, format2 (numpyVar [1/100, 12/1000, 11/1000, 13/1000, 1/100] * 1000),
       format2 (numpyPercentile [1/100, 12/1000, 11/1000, 13/1000, 1/100] 90 * 1000),
       format2 (numpyPercentile [1/100, 12/1000, 11/1000, 13/1000, 1/100] 95 * 1000),
       format2 (numpyPercentile [1/100, 12/1000, 11/1000, 13/1000, 1/100] 99 * 1000),
       format2 (listMean [1/100, 12/1000, 11/1000, 13/1000, 1/100] * 1000),
       format2 (1 * (1000 / (listMean [1/100, 12/1000, 11/1000, 13/1000, 1/100] * 1000)))⟩ :
        LatencyResult).latency_variance
        = format2 (popVariance [1/100, 12/1000, 11/1000, 13/1000, 1/100] * 1000) ∧
    (⟨5, format2 (numpyVar [1/100, 12/1000, 11/1000, 13/1000, 1/100] * 1000),
       format2 (numpyPercentile [1/100, 12/1000, 11/1000, 13/1000, 1/100] 90 * 1000),
       format2 (numpyPercentile [1/100, 12/1000, 11/1000, 13/1000, 1/100] 95 * 1000),
       format2 (numpyPercentile [1/100, 12/1000, 11/1000, 13/1000, 1/100] 99 * 1000),
       format2 (listMean [1/100, 12/1000, 11/1000, 13/1000, 1/100] * 1000),
       format2 (1 * (1000 / (listMean [1/100, 12/1000, 11/1000, 13/1000, 1/100] * 1000)))⟩ :
        LatencyResult).average_latency_ms
        = format2 (listMean [1/100, 12/1000, 11/1000, 13/1000, 1/100] * 1000) :=
  latency_variance_and_mean_fields [1/100, 12/1000, 11/1000, 13/1000, 1/100] 1 _
    (by norm_num [get_latency_result, listMean])

/-- C6: for a single-sample duration sequence the reducer yields
`latency_variance = 0` and all three percentile fields equal to the
single sample × 1000 (to 2 decimal places); the reducer is undefined
(raises) for an empty sequence. -/
theorem single_sample_and_empty_reducer (x : ℚ) (b : ℤ) (r : LatencyResult) :
    (get_latency_result [x] b = some r →
      r.latency_variance = 0 ∧
      r.latency_90_percentile = format2 (x * 1000) ∧
      r.latency_95_percentile = format2 (x * 1000) ∧
      r.latency_99_percentile = format2 (x * 1000)) ∧
    get_latency_result ([] : List ℚ) b = none := by
  constructor
  · intro h
    obtain ⟨-, -, hr⟩ := get_latency_result_eq _ _ _ h
    subst hr
    refine ⟨?_, ?_, ?_, ?_⟩ <;>
      simp [numpyVar_singleton, numpyPercentile_singleton, format2]
  · simp [get_latency_result]

/-- Witness for C6 at the concrete input `[1]` (1 second), batch size 1. -/
theorem single_sample_and_empty_reducer_witness :
    ((⟨1, 0, 1000, 1000, 1000, 1000, 1⟩ : LatencyResult).latency_variance = 0 ∧
      (⟨1, 0, 1000, 1000, 1000, 1000, 1⟩ : LatencyResult).latency_90_percentile
        = format2 ((1 : ℚ) * 1000) ∧
      (⟨1, 0, 1000, 1000, 1000, 1000, 1⟩ : LatencyResult).latency_95_percentile
        = format2 ((1 : ℚ) * 1000) ∧
      (⟨1, 0, 1000, 1000, 1000, 1000, 1⟩ : LatencyResult).latency_99_percentile
        = format2 ((1 : ℚ) * 1000)) ∧
    get_latency_result ([] : List ℚ) 1 = none :=
  ⟨(single_sample_and_empty_reducer 1 1 ⟨1, 0, 1000, 1000, 1000, 1000, 1⟩).1
      (by norm_num [get_latency_result, listMean, numpyVar, numpyPercentile, format2,
                    List.insertionSort, List.orderedInsert]),
    (single_sample_and_empty_reducer 1 1 ⟨1, 0, 1000, 1000, 1000, 1000, 1⟩).2⟩

/-- C7: the `QPS` field equals `batch_size * (1000 / average_latency_ms)`
(to 2 decimal places, with the unformatted average latency
`mean × 1000`, exactly as the code computes it), and for a fixed
duration sequence QPS is monotonically non-decreasing in the batch
size. -/
theorem qps_formula_and_monotone :
    (∀ (runtimes : List ℚ) (b : ℤ) (r : LatencyResult),
        get_latency_result runtimes b = some r →
        r.QPS = format2 (b * (1000 / (listMean runtimes * 1000)))) ∧
    (∀ (runtimes : List ℚ) (b₁ b₂ : ℤ) (r₁ r₂ : LatencyResult),
        (∀ x ∈ runtimes, 0 ≤ x) → b₁ ≤ b₂ →
        get_latency_result runtimes b₁ = some r₁ →
        get_latency_result runtimes b₂ = some r₂ → r₁.QPS ≤ r₂.QPS) := by
  constructor
  · intro rt b r h
    obtain ⟨-, -, hr⟩ := get_latency_result_eq _ _ _ h
    subst hr; rfl
  · intro rt b₁ b₂ r₁ r₂ hpos hb h₁ h₂
    obtain ⟨hne, hm, hr₁⟩ := get_latency_result_eq _ _ _ h₁
    obtain ⟨-, -, hr₂⟩ := get_latency_result_eq _ _ _ h₂
    subst hr₁; subst hr₂
    apply format2_mono
    have hmean : 0 < listMean rt := lt_of_le_of_ne (listMean_nonneg rt hpos) (Ne.symm hm)
    have hc : 0 < 1000 / (listMean rt * 1000) := by positivity
    have hbb : (b₁ : ℚ) ≤ (b₂ : ℚ) := by exact_mod_cast hb
    exact mul_le_mul_of_nonneg_right hbb (le_of_lt hc)

/-- Witness for C7 at the concrete input `[1]` with batch sizes 1 ≤ 2. -/
theorem qps_formula_and_monotone_witness :
    (⟨1, 0, 1000, 1000, 1000, 1000, 1⟩ : LatencyResult).QPS
        = format2 ((1 : ℤ) * (1000 / (listMean [1] * 1000))) ∧
      (⟨1, 0, 1000, 1000, 1000, 1000, 1⟩ : LatencyResult).QPS
        ≤ (⟨1, 0, 1000, 1000, 1000, 1000, 2⟩ : LatencyResult).QPS :=
  ⟨qps_formula_and_monotone.1 [1] 1 ⟨1, 0, 1000, 1000, 1000, 1000, 1⟩
      (by norm_num [get_latency_result, listMean, numpyVar, numpyPercentile, format2,
                    List.insertionSort, List.orderedInsert]),
    qps_formula_and_monotone.2 [1] 1 2 ⟨1, 0, 1000, 1000, 1000, 1000, 1⟩
      ⟨1, 0, 1000, 1000, 1000, 1000, 2⟩ (by norm_num) (by norm_num)
      (by norm_num [get_latency_result, listMean, numpyVar, numpyPercentile, format2,
                    List.insertionSort, List.orderedInsert])
      (by norm_num [get_latency_result, listMean, numpyVar, numpyPercentile, format2,
                    List.insertionSort, List.orderedInsert])⟩

/- ### Grid Runner data model -/

/-- Python exception classes that play a role in the harness's control
flow: `RuntimeError` (caught by the pytorch runner), `ZeroDivisionError`
(from `get_latency_result`), and any other exception. -/
inductive PyError where
  | runtimeError
  | zeroDivision
  | other
  deriving DecidableEq

/-- One benchmark result record (the dict built in `run_onnxruntime` /
`run_pytorch`, lines 302-314 and 368-379). The pytorch runner stores the
empty string in the `optimize` column, modelled as `none`. -/
structure ResultRecord where
  engine : String
  version : String
  device : String
  optimize : Option Bool
  fp16 : Bool
  model_name : String
  inputs : ℕ
  batch_size : ℤ
  sequence_length : ℤ
  stats : LatencyResult
  deriving DecidableEq

/-- The `MODELS` table (benchmark.py:39-52): pretrained model name to
(input names, opset version, optimization model type). -/
def MODELS : List (String × (List String × ℕ × String)) := [
  ("bert-base-cased", (["input_ids", "attention_mask", "token_type_ids"], 11, "bert")),
  ("distilbert-base-uncased", (["input_ids", "attention_mask"], 11, "bert")),
  ("roberta-base", (["input_ids", "attention_mask"], 11, "bert")),
  ("gpt2", (["input_ids"], 11, "gpt2")),
  ("distilgpt2", (["input_ids"], 11, "gpt2")),
  ("openai-gpt", (["input_ids"], 11, "gpt2")),
  ("albert-base-v2", (["input_ids"], 12, "bert")),
  ("xlnet-base-cased", (["input_ids"], 12, "bert"))]

/-- The sequence-length skip test
`max_sequence_length is not None and sequence_length > max_sequence_length`
(benchmark.py:293, 348). -/
def skipSeq (maxSeq : Option ℤ) (s : ℤ) : Bool :=
  match maxSeq with
  | some m => s > m
  | none => false

/-- What `export_onnx_model` returns to `run_onnxruntime`: the ONNX file
name, the validity flag, the vocabulary size, and the model's maximum
supported sequence length (`tokenizer.max_model_input_sizes`, nullable). -/
structure ExportResult where
  fileName : String
  isValid : Bool
  vocabSize : ℕ
  maxSequenceLength : Option ℤ

/-- Environment of external collaborators for `run_onnxruntime`:
the onnxruntime version string, GPU provider availability, the model
export (keyed by model name and input count, since the exported input
names are always the first `num_inputs` entries of the model's input
name list), session creation success by file name, and the timing
sampler `timeit.repeat(lambda: ort_session.run(...), ...)` keyed by
(file, batch, sequence length, repeat count). -/
structure OrtEnv where
  version : String
  cudaAvailable : Bool
  exportModel : String → ℕ → ExportResult
  sessionOk : String → Bool
  sample : String → ℤ → ℤ → ℕ → Except PyError (List ℚ)

/-- CLI arguments consumed by `run_onnxruntime`. -/
structure OrtArgs where
  useGpu : Bool
  fp16 : Bool
  batchSizes : List ℤ
  sequenceLengths : List ℤ
  repeatTimes : ℕ
  inputCounts : List ℕ
  optimizeOnnx : Bool

/-- The result dict assembled by `run_onnxruntime` (lines 302-314). -/
def mkOrtRecord (env : OrtEnv) (a : OrtArgs) (m : String) (n : ℕ) (b s : ℤ)
    (stats : LatencyResult) : ResultRecord :=
  { engine := "onnxruntime", version := env.version,
    device := if a.useGpu then "cuda" else "cpu",
    optimize := some a.optimizeOnnx, fp16 := a.fp16, model_name := m, inputs := n,
    batch_size := b, sequence_length := s, stats := stats }

/-- The `for sequence_length in sequence_lengths` loop of
`run_onnxruntime` (lines 292-316). A raising sampler invocation is NOT
caught here; it propagates out of the whole runner. -/
def ortSeqLoop (env : OrtEnv) (a : OrtArgs) (m : String) (n : ℕ) (file : String)
    (maxSeq : Option ℤ) (b : ℤ) : List ℤ → Except PyError (List ResultRecord)
  | [] => .ok []
  | s :: rest =>
    if skipSeq maxSeq s then ortSeqLoop env a m n file maxSeq b rest
    else
      match env.sample file b s a.repeatTimes with
      | .error e => .error e
      | .ok runtimes =>
        match get_latency_result runtimes b with
        | none => .error .zeroDivision
        | some stats =>
          match ortSeqLoop env a m n file maxSeq b rest with
          | .error e => .error e
          | .ok recs => .ok (mkOrtRecord env a m n b s stats :: recs)

/-- The `for batch_size in batch_sizes` loop of `run_onnxruntime`
(lines 289-291), skipping non-positive batch sizes. -/
def ortBatchLoop (env : OrtEnv) (a : OrtArgs) (m : String) (n : ℕ) (file : String)
    (maxSeq : Option ℤ) : List ℤ → Except PyError (List ResultRecord)
  | [] => .ok []
  | b :: rest =>
    if b ≤ 0 then ortBatchLoop env a m n file maxSeq rest
    else
      match ortSeqLoop env a m n file maxSeq b a.sequenceLengths with
      | .error e => .error e
      | .ok recs =>
        match ortBatchLoop env a m n file maxSeq rest with
        | .error e => .error e
        | .ok recs2 => .ok (recs ++ recs2)

/-- The `for num_inputs in input_counts` loop of `run_onnxruntime`
(lines 273-287): skip a count larger than the model's input-name list,
skip an invalid exported model, skip a failed session creation. -/
def ortInputLoop (env : OrtEnv) (a : OrtArgs) (m : String) (allInputNames : List String) :
    List ℕ → Except PyError (List ResultRecord)
  | [] => .ok []
  | n :: rest =>
    if allInputNames.length < n then ortInputLoop env a m allInputNames rest
    else if !(env.exportModel m n).isValid then ortInputLoop env a m allInputNames rest
    else if !env.sessionOk (env.exportModel m n).fileName then
      ortInputLoop env a m allInputNames rest
    else
      match ortBatchLoop env a m n (env.exportModel m n).fileName
          (env.exportModel m n).maxSequenceLength a.batchSizes with
        | .error e => .error e
        | .ok recs =>
          match ortInputLoop env a m allInputNames rest with
          | .error e => .error e
          | .ok recs2 => .ok (recs ++ recs2)

/-- The `for model_name in model_names` loop of `run_onnxruntime`
(lines 271-272). A model name outside `MODELS` raises `KeyError`. -/
def ortModelLoop (env : OrtEnv) (a : OrtArgs) : List String → Except PyError (List ResultRecord)
  | [] => .ok []
  | m :: rest =>
    match MODELS.lookup m with
    | none => .error .other
    | some info =>
      match ortInputLoop env a m info.1 a.inputCounts with
      | .error e => .error e
      | .ok recs =>
        match ortModelLoop env a rest with
        | .error e => .error e
        | .ok recs2 => .ok (recs ++ recs2)

/-- `run_onnxruntime` (benchmark.py:257-318). A GPU request without the
CUDA provider logs an error once and yields zero records. -/
def run_onnxruntime (env : OrtEnv) (a : OrtArgs) (modelNames : List String) :
    Except PyError (List ResultRecord) :=
  if a.useGpu && !env.cudaAvailable then .ok []
  else ortModelLoop env a modelNames

/- ### The pytorch / torchscript runner -/

/-- Observable side effects of the `except RuntimeError` handler of
`run_pytorch` (lines 382-384): `logger.exception(e)` then
`torch.cuda.empty_cache()`. -/
inductive PtEvent where
  | logException
  | emptyCache
  deriving DecidableEq

/-- Environment of external collaborators for `run_pytorch`: the torch
version string, `torch.cuda.is_available()`, the model's maximum input
size (`tokenizer.max_model_input_sizes`, nullable), and the fallible
trace-plus-inference-plus-timing unit of the `try` block keyed by
(model, torchscript flag, batch, sequence length, repeat count). -/
structure PtEnv where
  version : String
  cudaAvailable : Bool
  maxInputSize : String → Option ℤ
  sample : String → Bool → ℤ → ℤ → ℕ → Except PyError (List ℚ)

/-- CLI arguments consumed by `run_pytorch`. -/
structure PtArgs where
  useGpu : Bool
  fp16 : Bool
  batchSizes : List ℤ
  sequenceLengths : List ℤ
  repeatTimes : ℕ
  torchscript : Bool

/-- The result dict assembled by `run_pytorch` (lines 368-379); the
`inputs` column is the constant 1 and the `optimize` column the empty
string. -/
def mkPtRecord (env : PtEnv) (a : PtArgs) (m : String) (b s : ℤ)
    (stats : LatencyResult) : ResultRecord :=
  { engine := if a.torchscript then "torchscript" else "torch", version := env.version,
    device := if a.useGpu then "cuda" else "cpu",
    optimize := none, fp16 := a.fp16, model_name := m, inputs := 1,
    batch_size := b, sequence_length := s, stats := stats }

/-- The `for sequence_length in sequence_lengths` loop of `run_pytorch`
(lines 347-384). Only `RuntimeError` is caught: it is logged, the CUDA
cache is emptied, and the loop continues; any other exception (including
`ZeroDivisionError` from `get_latency_result`, which is called inside
the `try` block) propagates. -/
def ptSeqLoop (env : PtEnv) (a : PtArgs) (m : String) (b : ℤ) :
    List ℤ → Except PyError (List ResultRecord × List PtEvent)
  | [] => .ok ([], [])
  | s :: rest =>
    if skipSeq (env.maxInputSize m) s then ptSeqLoop env a m b rest
    else
      match env.sample m a.torchscript b s a.repeatTimes with
      | .error .runtimeError =>
        match ptSeqLoop env a m b rest with
        | .error e => .error e
        | .ok (recs, evs) => .ok (recs, .logException :: .emptyCache :: evs)
      | .error e => .error e
      | .ok runtimes =>
        match get_latency_result runtimes b with
        | none => .error .zeroDivision
        | some stats =>
          match ptSeqLoop env a m b rest with
          | .error e => .error e
          | .ok (recs, evs) => .ok (mkPtRecord env a m b s stats :: recs, evs)

/-- The `for batch_size in batch_sizes` loop of `run_pytorch`
(lines 339-341), skipping non-positive batch sizes. -/
def ptBatchLoop (env : PtEnv) (a : PtArgs) (m : String) :
    List ℤ → Except PyError (List ResultRecord × List PtEvent)
  | [] => .ok ([], [])
  | b :: rest =>
    if b ≤ 0 then ptBatchLoop env a m rest
    else
      match ptSeqLoop env a m b a.sequenceLengths with
      | .error e => .error e
      | .ok (recs, evs) =>
        match ptBatchLoop env a m rest with
        | .error e => .error e
        | .ok (recs2, evs2) => .ok (recs ++ recs2, evs ++ evs2)

/-- The `for model_name in model_names` loop of `run_pytorch`
(lines 331-338). -/
def ptModelLoop (env : PtEnv) (a : PtArgs) :
    List String → Except PyError (List ResultRecord × List PtEvent)
  | [] => .ok ([], [])
  | m :: rest =>
    match ptBatchLoop env a m a.batchSizes with
    | .error e => .error e
    | .ok (recs, evs) =>
      match ptModelLoop env a rest with
      | .error e => .error e
      | .ok (recs2, evs2) => .ok (recs ++ recs2, evs ++ evs2)

/-- `run_pytorch` (benchmark.py:321-386). A GPU request without CUDA
availability logs an error once and yields zero records. -/
def run_pytorch (env : PtEnv) (a : PtArgs) (modelNames : List String) :
    Except PyError (List ResultRecord × List PtEvent) :=
  if a.useGpu && !env.cudaAvailable then .ok ([], [])
  else ptModelLoop env a modelNames

/- ### Result Aggregator / Reporter -/

/-- Exceptions raised during report generation: the `assert` in
`output_summary` (line 428), `csv.DictWriter.writerow` receiving a dict
key outside the declared fieldnames, and `next(iter(...))` on an empty
mapping in `output_fusion_statistics` (line 439). -/
inductive ReportError where
  | assertionError
  | valueError
  | stopIteration
  deriving DecidableEq

/-- The identifying fields of a summary row
(`header_names = ["model_name", "inputs", "engine", "version", "device", "fp16", "optimize"]`,
line 407). -/
structure RowHeader where
  model_name : String
  inputs : ℕ
  engine : String
  version : String
  device : String
  fp16 : Bool
  optimize : Option Bool
  deriving DecidableEq

/-- The identifying fields of a record. -/
def hdrOf (r : ResultRecord) : RowHeader :=
  ⟨r.model_name, r.inputs, r.engine, r.version, r.device, r.fp16, r.optimize⟩

/-- The data-cell key of a record: `(batch_size, sequence_length)`,
naming the `b{batch_size}_s{sequence_length}` column. -/
def keyOf (r : ResultRecord) : ℤ × ℤ := (r.batch_size, r.sequence_length)

/-- The membership test of the result loop (lines 420-421):
`result["model_name"] == model_name and result["inputs"] == input_count and result["engine"] == engine_name`. -/
def matchesTriple (t : String × ℕ × String) (r : ResultRecord) : Bool :=
  r.model_name == t.1 && r.inputs == t.2.1 && r.engine == t.2.2

/-- The mutable `row` dict while scanning results for one triple: the
header fields set by the first matching record plus the data cells set
so far (most recent assignment first, as with Python dict overwrite). -/
structure RowState where
  hdr : RowHeader
  cells : List ((ℤ × ℤ) × ℚ)
  deriving DecidableEq

/-- One written summary row: header fields plus one cell per
`b{batch}_s{seq}` data column (`none` = left blank). -/
structure SummaryRow where
  hdr : RowHeader
  data : List ((ℤ × ℤ) × Option ℚ)
  deriving DecidableEq

/-- The data cell a record contributes:
`row[f"b{batch_size}_s{sequence_length}"] = result["average_latency_ms"]`
(lines 429-431). -/
def cellOf (r : ResultRecord) : (ℤ × ℤ) × ℚ := (keyOf r, r.stats.average_latency_ms)

/-- The `for result in results` loop of `output_summary` (lines 419-431):
the first matching record initializes the row, later matching records
must agree on every header field (`assert row[k] == headers[k]`) and
overwrite their data cell (Python dict assignments are modelled by
prepending, so a lookup finds the most recent one). -/
def rowLoop (t : String × ℕ × String) :
    List ResultRecord → Option RowState → Except ReportError (Option RowState)
  | [], st => .ok st
  | r :: rest, none =>
    if matchesTriple t r then rowLoop t rest (some ⟨hdrOf r, [cellOf r]⟩)
    else rowLoop t rest none
  | r :: rest, some st1 =>
    if matchesTriple t r then
      (if hdrOf r = st1.hdr then rowLoop t rest (some ⟨st1.hdr, cellOf r :: st1.cells⟩)
       else .error .assertionError)
    else rowLoop t rest (some st1)

/-- Building and writing one summary row (`row = {}` through
`csv_writer.writerow(row)`, lines 418-432): an empty dict writes an
all-blank row; a cell key outside the declared data columns makes
`writerow` raise `ValueError`. -/
def buildRow (results : List ResultRecord) (dataKeys : List (ℤ × ℤ))
    (t : String × ℕ × String) : Except ReportError (Option SummaryRow) :=
  match rowLoop t results none with
  | .error e => .error e
  | .ok none => .ok none
  | .ok (some st) =>
    if st.cells.all (fun kc => decide (kc.1 ∈ dataKeys)) then
      .ok (some ⟨st.hdr, dataKeys.map (fun k => (k, st.cells.lookup k))⟩)
    else .error .valueError

/-- `data_names` (lines 408-411): one `b{batch_size}_s{sequence_length}`
column per declared batch size × sequence length combination. -/
def summaryDataKeys (batchSizes seqLens : List ℤ) : List (ℤ × ℤ) :=
  batchSizes.flatMap (fun b => seqLens.map (fun s => (b, s)))

/-- The row iteration space of `output_summary` (lines 415-417):
`args.models × [1, 2, 3] × args.engines`, with the input-count grouping
hard-coded to `[1, 2, 3]`. -/
def summaryTriples (models engines : List String) : List (String × ℕ × String) :=
  models.flatMap (fun m => ([1, 2, 3] : List ℕ).flatMap (fun ic => engines.map (fun e => (m, ic, e))))

/-- The row-writing recursion of `output_summary`. -/
def summaryRowsLoop (results : List ResultRecord) (dataKeys : List (ℤ × ℤ)) :
    List (String × ℕ × String) → Except ReportError (List (Option SummaryRow))
  | [] => .ok []
  | t :: ts =>
    match buildRow results dataKeys t with
    | .error e => .error e
    | .ok row =>
      match summaryRowsLoop results dataKeys ts with
      | .error e => .error e
      | .ok rows => .ok (row :: rows)

/-- `output_summary(results, csv_filename, args)` (benchmark.py:405-434),
as the list of rows written to the summary CSV (`none` = a row whose
fields are all blank). -/
def output_summary (results : List ResultRecord) (models engines : List String)
    (batchSizes seqLens : List ℤ) : Except ReportError (List (Option SummaryRow)) :=
  summaryRowsLoop results (summaryDataKeys batchSizes seqLens) (summaryTriples models engines)

/- ### Fusion statistics report -/

/-- One row of the fusion report: the produced-model file name and one
cell per declared pass-name column (`none` = blank, for a pass name the
model's statistics lack). -/
structure FusionRow where
  model_filename : String
  cells : List (String × Option ℕ)
  deriving DecidableEq

/-- The row loop of `output_fusion_statistics` (lines 442-444): each
recorded model writes one row; a pass name outside the declared columns
makes `writerow` raise `ValueError`. -/
def fusionRowsLoop (cols : List String) :
    List (String × List (String × ℕ)) → Except ReportError (List FusionRow)
  | [] => .ok []
  | (f, d) :: rest =>
    if d.all (fun kc => decide (kc.1 ∈ cols)) then
      match fusionRowsLoop cols rest with
      | .error e => .error e
      | .ok rows => .ok (⟨f, cols.map (fun c => (c, d.lookup c))⟩ :: rows)
    else .error .valueError

/-- `output_fusion_statistics(optimize_model_statistics, csv_filename)`
(benchmark.py:437-445). The data columns are
`list(next(iter(optimize_model_statistics.values())).keys())` — the pass
names of the FIRST recorded model; `next` on an empty mapping raises
`StopIteration`. The statistics mapping is modelled as an association
list in insertion order. -/
def output_fusion_statistics (stats : List (String × List (String × ℕ))) :
    Except ReportError (List FusionRow) :=
  match stats with
  | [] => .error .stopIteration
  | (_, d0) :: _ => fusionRowsLoop (d0.map Prod.fst) stats

/- ### main: exit behaviour and argument coercion -/

/-- Which reports `main` (benchmark.py:578-591) writes, and whether the
`"No any result avaiable."` warning is logged. A flag records that the
corresponding output function is invoked. -/
structure MainOutcome where
  fusionWritten : Bool
  detailWritten : Bool
  summaryWritten : Bool
  warnedNoResults : Bool
  deriving DecidableEq

/-- The report-writing tail of `main` (lines 578-591): the fusion report
is written whenever `optimize_model_statistics` is non-empty; with zero
result records a warning is logged and `main` returns before writing the
detail and summary files. An exception from `output_fusion_statistics`
propagates (crashing `main` before anything else). -/
def mainReport (stats : List (String × List (String × ℕ))) (results : List ResultRecord) :
    Except ReportError MainOutcome :=
  if stats.isEmpty then
    if results.isEmpty then .ok ⟨false, false, false, true⟩
    else .ok ⟨false, true, true, false⟩
  else
    match output_fusion_statistics stats with
    | .error e => .error e
    | .ok _ =>
      if results.isEmpty then .ok ⟨true, false, false, true⟩
      else .ok ⟨true, true, true, false⟩

/-- The fp16 coercion of `main` (lines 537-539): `--fp16` without
`--use_gpu` logs a warning and forces `args.fp16 = False`. Returns the
effective fp16 flag and whether the warning was logged. -/
def adjust_fp16 (fp16 use_gpu : Bool) : Bool × Bool :=
  if fp16 && !use_gpu then (false, true) else (fp16, false)

/- ### Membership invariants of the onnxruntime runner -/

theorem ortSeqLoop_mem (env : OrtEnv) (a : OrtArgs) (m : String) (n : ℕ) (file : String)
    (maxSeq : Option ℤ) (b : ℤ) (ss : List ℤ) :
    ∀ recs, ortSeqLoop env a m n file maxSeq b ss = .ok recs →
      ∀ r ∈ recs, ∃ s stats, r = mkOrtRecord env a m n b s stats ∧ skipSeq maxSeq s = false := by
  induction ss with
  | nil =>
    intro recs h r hr
    rw [ortSeqLoop] at h
    cases h
    simp at hr
  | cons s rest ih =>
    intro recs h r hr
    rw [ortSeqLoop] at h
    split at h
    · exact ih recs h r hr
    · next hskip =>
      cases hs : env.sample file b s a.repeatTimes with
      | error e => simp [hs] at h
      | ok runtimes =>
        cases hg : get_latency_result runtimes b with
        | none => simp [hs, hg] at h
        | some stats =>
          cases ho : ortSeqLoop env a m n file maxSeq b rest with
          | error e => simp [hs, hg, ho] at h
          | ok recs2 =>
            simp only [hs, hg, ho] at h
            cases h
            simp only [Bool.not_eq_true] at hskip
            rcases List.mem_cons.mp hr with hr1 | hr1
            · exact ⟨s, stats, hr1, hskip⟩
            · exact ih recs2 ho r hr1

theorem ortBatchLoop_mem (env : OrtEnv) (a : OrtArgs) (m : String) (n : ℕ) (file : String)
    (maxSeq : Option ℤ) (bs : List ℤ) :
    ∀ recs, ortBatchLoop env a m n file maxSeq bs = .ok recs →
      ∀ r ∈ recs, ∃ b s stats, 0 < b ∧ r = mkOrtRecord env a m n b s stats ∧
        skipSeq maxSeq s = false := by
  induction bs with
  | nil =>
    intro recs h r hr
    rw [ortBatchLoop] at h
    cases h
    simp at hr
  | cons b rest ih =>
    intro recs h r hr
    rw [ortBatchLoop] at h
    split at h
    · exact ih recs h r hr
    · next hpos =>
      cases hs : ortSeqLoop env a m n file maxSeq b a.sequenceLengths with
      | error e => simp [hs] at h
      | ok recs1 =>
        cases hb : ortBatchLoop env a m n file maxSeq rest with
        | error e => simp [hs, hb] at h
        | ok recs2 =>
          simp only [hs, hb] at h
          cases h
          rcases List.mem_append.mp hr with hr1 | hr1
          · obtain ⟨s, stats, heq, hsk⟩ := ortSeqLoop_mem env a m n file maxSeq b _ recs1 hs r hr1
            exact ⟨b, s, stats, by omega, heq, hsk⟩
          · exact ih recs2 hb r hr1

theorem ortInputLoop_mem (env : OrtEnv) (a : OrtArgs) (m : String) (allInputNames : List String)
    (ns : List ℕ) :
    ∀ recs, ortInputLoop env a m allInputNames ns = .ok recs →
      ∀ r ∈ recs, ∃ n b s stats, 0 < b ∧ r = mkOrtRecord env a m n b s stats ∧
        skipSeq (env.exportModel m n).maxSequenceLength s = false := by
  induction ns with
  | nil =>
    intro recs h r hr
    rw [ortInputLoop] at h
    cases h
    simp at hr
  | cons n rest ih =>
    intro recs h r hr
    rw [ortInputLoop] at h
    split at h
    · exact ih recs h r hr
    · split at h
      · exact ih recs h r hr
      · split at h
        · exact ih recs h r hr
        · cases hb : ortBatchLoop env a m n (env.exportModel m n).fileName
              (env.exportModel m n).maxSequenceLength a.batchSizes with
          | error e => simp [hb] at h
          | ok recs1 =>
            cases hi : ortInputLoop env a m allInputNames rest with
            | error e => simp [hb, hi] at h
            | ok recs2 =>
              simp only [hb, hi] at h
              cases h
              rcases List.mem_append.mp hr with hr1 | hr1
              · obtain ⟨b, s, stats, hbpos, heq, hsk⟩ :=
                  ortBatchLoop_mem env a m n _ _ _ recs1 hb r hr1
                exact ⟨n, b, s, stats, hbpos, heq, hsk⟩
              · exact ih recs2 hi r hr1

theorem ortModelLoop_mem (env : OrtEnv) (a : OrtArgs) (ms : List String) :
    ∀ recs, ortModelLoop env a ms = .ok recs →
      ∀ r ∈ recs, ∃ m n b s stats, 0 < b ∧ r = mkOrtRecord env a m n b s stats ∧
        skipSeq (env.exportModel m n).maxSequenceLength s = false := by
  induction ms with
  | nil =>
    intro recs h r hr
    rw [ortModelLoop] at h
    cases h
    simp at hr
  | cons m rest ih =>
    intro recs h r hr
    rw [ortModelLoop] at h
    cases hl : MODELS.lookup m with
    | none => simp [hl] at h
    | some info =>
      cases hi : ortInputLoop env a m info.1 a.inputCounts with
      | error e => simp [hl, hi] at h
      | ok recs1 =>
        cases hm : ortModelLoop env a rest with
        | error e => simp [hl, hi, hm] at h
        | ok recs2 =>
          simp only [hl, hi, hm] at h
          cases h
          rcases List.mem_append.mp hr with hr1 | hr1
          · obtain ⟨n, b, s, stats, hbpos, heq, hsk⟩ :=
              ortInputLoop_mem env a m info.1 _ recs1 hi r hr1
            exact ⟨m, n, b, s, stats, hbpos, heq, hsk⟩
          · exact ih recs2 hm r hr1

/-- Every record an `run_onnxruntime` call can return satisfies: all
identifying fields are the runner's own tags, the batch size is
positive, and the sequence length respects the exported model's known
maximum. -/
theorem run_onnxruntime_record_inv (env : OrtEnv) (a : OrtArgs) (modelNames : List String)
    (recs : List ResultRecord) (h : run_onnxruntime env a modelNames = .ok recs)
    (r : ResultRecord) (hr : r ∈ recs) :
    r.engine = "onnxruntime" ∧ r.version = env.version ∧
      r.device = (if a.useGpu then "cuda" else "cpu") ∧
      r.optimize = some a.optimizeOnnx ∧ r.fp16 = a.fp16 ∧
      0 < r.batch_size ∧
      (∀ mx, (env.exportModel r.model_name r.inputs).maxSequenceLength = some mx →
        r.sequence_length ≤ mx) := by
  rw [run_onnxruntime] at h
  split at h
  · cases h; simp at hr
  · obtain ⟨m, n, b, s, stats, hbpos, heq, hsk⟩ := ortModelLoop_mem env a modelNames recs h r hr
    subst heq
    refine ⟨rfl, rfl, rfl, rfl, rfl, hbpos, ?_⟩
    intro mx hmx
    simp only [mkOrtRecord] at hmx
    rw [hmx] at hsk
    simp only [skipSeq, decide_eq_false_iff_not, not_lt] at hsk
    exact hsk

/- ### Membership invariants of the pytorch runner -/

theorem ptSeqLoop_mem (env : PtEnv) (a : PtArgs) (m : String) (b : ℤ) (ss : List ℤ) :
    ∀ out, ptSeqLoop env a m b ss = .ok out →
      ∀ r ∈ out.1, ∃ s stats, r = mkPtRecord env a m b s stats ∧
        skipSeq (env.maxInputSize m) s = false := by
  induction ss with
  | nil =>
    intro out h r hr
    rw [ptSeqLoop] at h
    cases h
    simp at hr
  | cons s rest ih =>
    intro out h r hr
    rw [ptSeqLoop] at h
    split at h
    · exact ih out h r hr
    · next hskip =>
      cases hs : env.sample m a.torchscript b s a.repeatTimes with
      | error e =>
        cases e with
        | runtimeError =>
          cases hp : ptSeqLoop env a m b rest with
          | error e2 => simp [hs, hp] at h
          | ok p =>
            simp only [hs, hp] at h
            cases h
            exact ih p hp r hr
        | zeroDivision => simp [hs] at h
        | other => simp [hs] at h
      | ok runtimes =>
        cases hg : get_latency_result runtimes b with
        | none => simp [hs, hg] at h
        | some stats =>
          cases hp : ptSeqLoop env a m b rest with
          | error e2 => simp [hs, hg, hp] at h
          | ok p =>
            simp only [hs, hg, hp] at h
            cases h
            simp only [Bool.not_eq_true] at hskip
            rcases List.mem_cons.mp hr with hr1 | hr1
            · exact ⟨s, stats, hr1, hskip⟩
            · exact ih p hp r hr1

theorem ptBatchLoop_mem (env : PtEnv) (a : PtArgs) (m : String) (bs : List ℤ) :
    ∀ out, ptBatchLoop env a m bs = .ok out →
      ∀ r ∈ out.1, ∃ b s stats, 0 < b ∧ r = mkPtRecord env a m b s stats ∧
        skipSeq (env.maxInputSize m) s = false := by
  induction bs with
  | nil =>
    intro out h r hr
    rw [ptBatchLoop] at h
    cases h
    simp at hr
  | cons b rest ih =>
    intro out h r hr
    rw [ptBatchLoop] at h
    split at h
    · exact ih out h r hr
    · next hpos =>
      cases hs : ptSeqLoop env a m b a.sequenceLengths with
      | error e => simp [hs] at h
      | ok p =>
        cases hb : ptBatchLoop env a m rest with
        | error e => simp [hs, hb] at h
        | ok p2 =>
          simp only [hs, hb] at h
          cases h
          rcases List.mem_append.mp hr with hr1 | hr1
          · obtain ⟨s, stats, heq, hsk⟩ := ptSeqLoop_mem env a m b _ p hs r hr1
            exact ⟨b, s, stats, by omega, heq, hsk⟩
          · exact ih p2 hb r hr1

theorem ptModelLoop_mem (env : PtEnv) (a : PtArgs) (ms : List String) :
    ∀ out, ptModelLoop env a ms = .ok out →
      ∀ r ∈ out.1, ∃ m b s stats, 0 < b ∧ r = mkPtRecord env a m b s stats ∧
        skipSeq (env.maxInputSize m) s = false := by
  induction ms with
  | nil =>
    intro out h r hr
    rw [ptModelLoop] at h
    cases h
    simp at hr
  | cons m rest ih =>
    intro out h r hr
    rw [ptModelLoop] at h
    cases hs : ptBatchLoop env a m a.batchSizes with
    | error e => simp [hs] at h
    | ok p =>
      cases hm : ptModelLoop env a rest with
      | error e => simp [hs, hm] at h
      | ok p2 =>
        simp only [hs, hm] at h
        cases h
        rcases List.mem_append.mp hr with hr1 | hr1
        · obtain ⟨b, s, stats, hbpos, heq, hsk⟩ := ptBatchLoop_mem env a m _ p hs r hr1
          exact ⟨m, b, s, stats, hbpos, heq, hsk⟩
        · exact ih p2 hm r hr1

/-- Every record a `run_pytorch` call can return satisfies: all
identifying fields are the runner's own tags, the batch size is
positive, and the sequence length respects the model's known maximum
input size. -/
theorem run_pytorch_record_inv (env : PtEnv) (a : PtArgs) (modelNames : List String)
    (out : List ResultRecord × List PtEvent)
    (h : run_pytorch env a modelNames = .ok out)
    (r : ResultRecord) (hr : r ∈ out.1) :
    r.engine = (if a.torchscript then "torchscript" else "torch") ∧
      r.version = env.version ∧
      r.device = (if a.useGpu then "cuda" else "cpu") ∧
      r.optimize = none ∧ r.fp16 = a.fp16 ∧ r.inputs = 1 ∧
      0 < r.batch_size ∧
      (∀ mx, env.maxInputSize r.model_name = some mx → r.sequence_length ≤ mx) := by
  rw [run_pytorch] at h
  split at h
  · cases h; simp at hr
  · obtain ⟨m, b, s, stats, hbpos, heq, hsk⟩ := ptModelLoop_mem env a modelNames out h r hr
    subst heq
    refine ⟨rfl, rfl, rfl, rfl, rfl, rfl, hbpos, ?_⟩
    intro mx hmx
    simp only [mkPtRecord] at hmx
    rw [hmx] at hsk
    simp only [skipSeq, decide_eq_false_iff_not, not_lt] at hsk
    exact hsk

/- ### Concrete evaluation environment for witnesses -/

theorem glrOne : get_latency_result [(1 : ℚ)] 1 = some ⟨1, 0, 1000, 1000, 1000, 1000, 1⟩ := by
  norm_num [get_latency_result, listMean, numpyVar, numpyPercentile, format2,
            List.insertionSort, List.orderedInsert]

/-- A concrete collaborator environment: every export succeeds with a
known maximum sequence length of 512, sessions load, and every timed
sampling returns the single duration 1 s. -/
def exOrtEnv : OrtEnv :=
  { version := "1.4.0", cudaAvailable := false,
    exportModel := fun _ _ => ⟨"gpt2_1.onnx", true, 1000, some 512⟩,
    sessionOk := fun _ => true,
    sample := fun _ _ _ _ => .ok [1] }

/-- Concrete CLI arguments: one input count, one batch size, one
sequence length. -/
def exOrtArgs : OrtArgs :=
  { useGpu := false, fp16 := false, batchSizes := [1], sequenceLengths := [8],
    repeatTimes := 1, inputCounts := [1], optimizeOnnx := false }

theorem lookup_gpt2 : MODELS.lookup "gpt2" = some (["input_ids"], 11, "gpt2") := rfl

theorem ort_run_eval :
    run_onnxruntime exOrtEnv exOrtArgs ["gpt2"]
      = .ok [mkOrtRecord exOrtEnv exOrtArgs "gpt2" 1 1 8 ⟨1, 0, 1000, 1000, 1000, 1000, 1⟩] := by
  simp [run_onnxruntime, ortModelLoop, ortInputLoop, ortBatchLoop, ortSeqLoop,
        exOrtEnv, exOrtArgs, skipSeq, lookup_gpt2, glrOne]

/- ### C4 -/

/-- C4: every ResultRecord emitted by either grid runner has a strictly
positive batch size, and a sequence length within the model's maximum
supported length whenever that maximum is known; offending combinations
are skipped and never produce a record. -/
theorem grid_runner_bounds :
    (∀ (env : OrtEnv) (a : OrtArgs) (modelNames : List String) (recs : List ResultRecord),
        run_onnxruntime env a modelNames = .ok recs →
        ∀ r ∈ recs, 0 < r.batch_size ∧
          ∀ mx, (env.exportModel r.model_name r.inputs).maxSequenceLength = some mx →
            r.sequence_length ≤ mx) ∧
    (∀ (env : PtEnv) (a : PtArgs) (modelNames : List String)
        (out : List ResultRecord × List PtEvent),
        run_pytorch env a modelNames = .ok out →
        ∀ r ∈ out.1, 0 < r.batch_size ∧
          ∀ mx, env.maxInputSize r.model_name = some mx → r.sequence_length ≤ mx) := by
  constructor
  · intro env a ms recs h r hr
    obtain ⟨-, -, -, -, -, hb, hs⟩ := run_onnxruntime_record_inv env a ms recs h r hr
    exact ⟨hb, hs⟩
  · intro env a ms out h r hr
    obtain ⟨-, -, -, -, -, -, hb, hs⟩ := run_pytorch_record_inv env a ms out h r hr
    exact ⟨hb, hs⟩

/-- Witness for C4: the concrete run above emits one record, with batch
size 1 > 0 and sequence length 8 ≤ 512. -/
theorem grid_runner_bounds_witness :
    0 < (mkOrtRecord exOrtEnv exOrtArgs "gpt2" 1 1 8
          ⟨1, 0, 1000, 1000, 1000, 1000, 1⟩).batch_size ∧
      ∀ mx, (exOrtEnv.exportModel
          (mkOrtRecord exOrtEnv exOrtArgs "gpt2" 1 1 8
            ⟨1, 0, 1000, 1000, 1000, 1000, 1⟩).model_name
          (mkOrtRecord exOrtEnv exOrtArgs "gpt2" 1 1 8
            ⟨1, 0, 1000, 1000, 1000, 1000, 1⟩).inputs).maxSequenceLength = some mx →
        (mkOrtRecord exOrtEnv exOrtArgs "gpt2" 1 1 8
          ⟨1, 0, 1000, 1000, 1000, 1000, 1⟩).sequence_length ≤ mx :=
  grid_runner_bounds.1 exOrtEnv exOrtArgs ["gpt2"] _ ort_run_eval _ (by simp)

/- ### C10 -/

/-- C10: requesting fp16 without the GPU flag coerces fp16 to `false`
(logging a warning exactly when fp16 was requested) and the run
proceeds; every record either runner then produces on such a CPU run
carries `fp16 = false`. -/
theorem fp16_cpu_coercion :
    (∀ fp16 : Bool, adjust_fp16 fp16 false = (false, fp16)) ∧
    (∀ (fp16 : Bool) (env : OrtEnv) (a : OrtArgs) (modelNames : List String)
        (recs : List ResultRecord),
        a.fp16 = (adjust_fp16 fp16 false).1 →
        run_onnxruntime env a modelNames = .ok recs → ∀ r ∈ recs, r.fp16 = false) ∧
    (∀ (fp16 : Bool) (env : PtEnv) (a : PtArgs) (modelNames : List String)
        (out : List ResultRecord × List PtEvent),
        a.fp16 = (adjust_fp16 fp16 false).1 →
        run_pytorch env a modelNames = .ok out → ∀ r ∈ out.1, r.fp16 = false) := by
  refine ⟨fun fp16 => by cases fp16 <;> rfl, ?_, ?_⟩
  · intro fp16 env a ms recs ha h r hr
    obtain ⟨-, -, -, -, hf, -, -⟩ := run_onnxruntime_record_inv env a ms recs h r hr
    rw [hf, ha]
    cases fp16 <;> rfl
  · intro fp16 env a ms out ha h r hr
    obtain ⟨-, -, -, -, hf, -, -, -⟩ := run_pytorch_record_inv env a ms out h r hr
    rw [hf, ha]
    cases fp16 <;> rfl

/-- Witness for C10: with fp16 requested on CPU, the concrete run's
record carries `fp16 = false`. -/
theorem fp16_cpu_coercion_witness :
    (mkOrtRecord exOrtEnv exOrtArgs "gpt2" 1 1 8
      ⟨1, 0, 1000, 1000, 1000, 1000, 1⟩).fp16 = false :=
  fp16_cpu_coercion.2.1 true exOrtEnv exOrtArgs ["gpt2"] _ rfl ort_run_eval _ (by simp)

/- ### C1: behaviour of the runners under sampling failures -/

/-- The outcome of one (model, batch, sequence) combination of the
pytorch runner: the record it contributes, or `none` when the sampling
unit raises. -/
def ptRecordFor (env : PtEnv) (a : PtArgs) (m : String) (b s : ℤ) : Option ResultRecord :=
  match env.sample m a.torchscript b s a.repeatTimes with
  | .ok rts => (get_latency_result rts b).map (fun stats => mkPtRecord env a m b s stats)
  | .error _ => none

/-- Whether the sampling unit of one combination raises `RuntimeError`
(the exception class the pytorch runner catches). -/
def ptFails (env : PtEnv) (a : PtArgs) (m : String) (b s : ℤ) : Bool :=
  match env.sample m a.torchscript b s a.repeatTimes with
  | .error .runtimeError => true
  | _ => false

/-- The sampling unit of a combination either succeeds with a reducible
duration list or raises exactly `RuntimeError` (no stray exception
class, no zero-length/zero-mean duration list). -/
def ptBenign (env : PtEnv) (a : PtArgs) (m : String) (b s : ℤ) : Prop :=
  match env.sample m a.torchscript b s a.repeatTimes with
  | .ok rts => (get_latency_result rts b).isSome = true
  | .error e => e = .runtimeError

/-- Spec-side description of the records of the innermost pytorch loop:
one record per non-skipped sequence length whose sampling succeeds. -/
def ptSeqSpecRecs (env : PtEnv) (a : PtArgs) (m : String) (b : ℤ) (ss : List ℤ) :
    List ResultRecord :=
  (ss.filter (fun s => !skipSeq (env.maxInputSize m) s)).filterMap
    (fun s => ptRecordFor env a m b s)

/-- Spec-side description of the failure events of the innermost pytorch
loop: one log-exception followed by one cache-empty step per non-skipped
combination whose sampling raises `RuntimeError`. -/
def ptSeqSpecEvs (env : PtEnv) (a : PtArgs) (m : String) (b : ℤ) (ss : List ℤ) :
    List PtEvent :=
  ((ss.filter (fun s => !skipSeq (env.maxInputSize m) s)).filter
    (fun s => ptFails env a m b s)).flatMap
    (fun _ => [PtEvent.logException, PtEvent.emptyCache])

/-- Spec-side records of the pytorch batch loop: positive batch sizes
only, in grid order. -/
def ptBatchSpecRecs (env : PtEnv) (a : PtArgs) (m : String) (bs : List ℤ) :
    List ResultRecord :=
  (bs.filter (fun b => !decide (b ≤ 0))).flatMap
    (fun b => ptSeqSpecRecs env a m b a.sequenceLengths)

/-- Spec-side failure events of the pytorch batch loop. -/
def ptBatchSpecEvs (env : PtEnv) (a : PtArgs) (m : String) (bs : List ℤ) :
    List PtEvent :=
  (bs.filter (fun b => !decide (b ≤ 0))).flatMap
    (fun b => ptSeqSpecEvs env a m b a.sequenceLengths)

/-- Spec-side records of the full pytorch grid. -/
def ptModelSpecRecs (env : PtEnv) (a : PtArgs) (ms : List String) : List ResultRecord :=
  ms.flatMap (fun m => ptBatchSpecRecs env a m a.batchSizes)

/-- Spec-side failure events of the full pytorch grid. -/
def ptModelSpecEvs (env : PtEnv) (a : PtArgs) (ms : List String) : List PtEvent :=
  ms.flatMap (fun m => ptBatchSpecEvs env a m a.batchSizes)

theorem ptSeqLoop_char (env : PtEnv) (a : PtArgs) (m : String) (b : ℤ) (ss : List ℤ)
    (h : ∀ s ∈ ss, ptBenign env a m b s) :
    ptSeqLoop env a m b ss = .ok (ptSeqSpecRecs env a m b ss, ptSeqSpecEvs env a m b ss) := by
  induction ss with
  | nil => rfl
  | cons s rest ih =>
    have hs : ptBenign env a m b s := h s (by simp)
    have hrest : ∀ s2 ∈ rest, ptBenign env a m b s2 := fun s2 hs2 => h s2 (by simp [hs2])
    rw [ptSeqLoop, ih hrest]
    by_cases hsk : skipSeq (env.maxInputSize m) s = true
    · simp [hsk, ptSeqSpecRecs, ptSeqSpecEvs]
    · have hsk2 : skipSeq (env.maxInputSize m) s = false := by simpa using hsk
      cases hsmp : env.sample m a.torchscript b s a.repeatTimes with
      | error e =>
        simp only [ptBenign, hsmp] at hs
        subst hs
        simp [hsmp, hsk2, ptSeqSpecRecs, ptSeqSpecEvs, ptRecordFor, ptFails]
      | ok rts =>
        simp only [ptBenign, hsmp] at hs
        obtain ⟨stats, hg⟩ := Option.isSome_iff_exists.mp hs
        simp [hsmp, hg, hsk2, ptSeqSpecRecs, ptSeqSpecEvs, ptRecordFor, ptFails]

theorem ptBatchLoop_char (env : PtEnv) (a : PtArgs) (m : String) (bs : List ℤ)
    (h : ∀ b s, ptBenign env a m b s) :
    ptBatchLoop env a m bs = .ok (ptBatchSpecRecs env a m bs, ptBatchSpecEvs env a m bs) := by
  induction bs with
  | nil => rfl
  | cons b rest ih =>
    rw [ptBatchLoop, ptSeqLoop_char env a m b a.sequenceLengths (fun s _ => h b s), ih]
    by_cases hb : b ≤ 0
    · simp [hb, ptBatchSpecRecs, ptBatchSpecEvs]
    · simp [hb, ptBatchSpecRecs, ptBatchSpecEvs]

theorem ptModelLoop_char (env : PtEnv) (a : PtArgs) (ms : List String)
    (h : ∀ m b s, ptBenign env a m b s) :
    ptModelLoop env a ms = .ok (ptModelSpecRecs env a ms, ptModelSpecEvs env a ms) := by
  induction ms with
  | nil => rfl
  | cons m rest ih =>
    rw [ptModelLoop, ptBatchLoop_char env a m a.batchSizes (h m), ih]
    simp [ptModelSpecRecs, ptModelSpecEvs]

/-- A concrete onnxruntime environment whose sampler raises
`RuntimeError` at sequence length 8 and succeeds at every other
sequence length. -/
def exOrtEnvFail : OrtEnv :=
  { version := "1.4.0", cudaAvailable := false,
    exportModel := fun _ _ => ⟨"gpt2_1.onnx", true, 1000, none⟩,
    sessionOk := fun _ => true,
    sample := fun _ _ s _ => if s = 8 then .error .runtimeError else .ok [1] }

/-- Concrete CLI arguments with two sequence lengths, 8 and 32. -/
def exOrtFailArgs : OrtArgs :=
  { useGpu := false, fp16 := false, batchSizes := [1], sequenceLengths := [8, 32],
    repeatTimes := 1, inputCounts := [1], optimizeOnnx := false }

/-- Counterexample to C1 as stated: in `run_onnxruntime` a sampling
exception at the combination (batch 1, sequence 8) is not caught inside
the runner — the whole engine run aborts with the exception even though
the sampler would succeed at the remaining combination
(batch 1, sequence 32), so the runner does NOT proceed to the next
combination of the same engine run. -/
theorem sampling_failure_counterexample :
    exOrtEnvFail.sample "gpt2_1.onnx" 1 32 1 = .ok [1] ∧
      run_onnxruntime exOrtEnvFail exOrtFailArgs ["gpt2"] = .error .runtimeError := by
  constructor
  · rfl
  · simp [run_onnxruntime, ortModelLoop, ortInputLoop, ortBatchLoop, ortSeqLoop,
          exOrtEnvFail, exOrtFailArgs, skipSeq, lookup_gpt2]

/-- C1 (amended): only the pytorch/torchscript runner recovers from a
sampling failure per combination — a `RuntimeError` during the timed
unit yields no record for that combination, is logged, triggers the
CUDA cache reclamation, and the runner proceeds through the remaining
grid (the run result is exactly the per-combination outcomes of the
whole grid, with one log-and-reclaim event pair per failing
combination). In the onnxruntime runner a sampling exception is not
caught: it aborts the remaining combinations of that engine run. -/
theorem sampling_failure_handling :
    (∀ (env : PtEnv) (a : PtArgs) (modelNames : List String),
        (∀ m b s, ptBenign env a m b s) →
        (a.useGpu && !env.cudaAvailable) = false →
        run_pytorch env a modelNames
          = .ok (ptModelSpecRecs env a modelNames, ptModelSpecEvs env a modelNames)) ∧
    (∀ (env : OrtEnv) (a : OrtArgs) (m : String) (n : ℕ) (file : String)
        (maxSeq : Option ℤ) (b s : ℤ) (rest : List ℤ) (e : PyError),
        skipSeq maxSeq s = false →
        env.sample file b s a.repeatTimes = .error e →
        ortSeqLoop env a m n file maxSeq b (s :: rest) = .error e) := by
  constructor
  · intro env a ms h hgpu
    rw [run_pytorch, if_neg (by simp [hgpu])]
    exact ptModelLoop_char env a ms h
  · intro env a m n file maxSeq b s rest e hsk hsmp
    rw [ortSeqLoop]
    simp [hsk, hsmp]

/-- A concrete pytorch environment whose sampler raises `RuntimeError`
at sequence length 8 and succeeds at every other sequence length. -/
def exPtEnv : PtEnv :=
  { version := "1.5.0", cudaAvailable := false,
    maxInputSize := fun _ => some 512,
    sample := fun _ _ _ s _ => if s = 8 then .error .runtimeError else .ok [1] }

/-- Concrete pytorch CLI arguments with sequence lengths 8 and 32. -/
def exPtArgs : PtArgs :=
  { useGpu := false, fp16 := false, batchSizes := [1], sequenceLengths := [8, 32],
    repeatTimes := 1, torchscript := false }

/-- Witness for the amended C1: the concrete pytorch run hits a
`RuntimeError` at (1, 8) and still completes, returning exactly the
grid's per-combination outcomes; and a concrete onnxruntime sequence
loop aborts on a sampling error. -/
theorem sampling_failure_handling_witness :
    run_pytorch exPtEnv exPtArgs ["gpt2"]
        = .ok (ptModelSpecRecs exPtEnv exPtArgs ["gpt2"],
               ptModelSpecEvs exPtEnv exPtArgs ["gpt2"]) ∧
      ortSeqLoop exOrtEnvFail exOrtFailArgs "gpt2" 1 "gpt2_1.onnx" none 1 [8, 32]
        = .error .runtimeError :=
  ⟨sampling_failure_handling.1 exPtEnv exPtArgs ["gpt2"]
      (by
        intro m b s
        by_cases hs : s = 8
        · simp [ptBenign, exPtEnv, exPtArgs, hs]
        · norm_num [ptBenign, exPtEnv, exPtArgs, hs, get_latency_result, listMean])
      rfl,
    sampling_failure_handling.2 exOrtEnvFail exOrtFailArgs "gpt2" 1 "gpt2_1.onnx"
      none 1 8 [32] .runtimeError rfl rfl⟩

/- ### C2 / C9: characterization of the summary report -/

/-- Spec-side description of the summary row of one
(model, input-count, engine) triple: no matching record gives an
all-blank row (`none`); otherwise the header fields of the first
matching record and, per declared data column, the average latency of
the most recent matching record with that (batch, sequence) key. -/
def summaryRowFor (results : List ResultRecord) (dataKeys : List (ℤ × ℤ))
    (t : String × ℕ × String) : Option SummaryRow :=
  match results.filter (matchesTriple t) with
  | [] => none
  | r0 :: _ =>
    some ⟨hdrOf r0,
      dataKeys.map (fun k =>
        (k, (((results.filter (matchesTriple t)).map cellOf).reverse).lookup k))⟩

theorem rowLoop_some_char (t : String × ℕ × String) (results : List ResultRecord) :
    ∀ (st0 : RowState) (out : Option RowState),
      rowLoop t results (some st0) = .ok out →
      (∀ r ∈ results, matchesTriple t r = true → hdrOf r = st0.hdr) ∧
      out = some ⟨st0.hdr, ((results.filter (matchesTriple t)).map cellOf).reverse ++ st0.cells⟩ := by
  induction results with
  | nil =>
    intro st0 out h
    rw [rowLoop] at h
    cases h
    simp
  | cons r rest ih =>
    intro st0 out h
    rw [rowLoop] at h
    split at h
    · next hm =>
      split at h
      · next hhdr =>
        obtain ⟨hagree, hout⟩ := ih ⟨st0.hdr, cellOf r :: st0.cells⟩ out h
        refine ⟨?_, ?_⟩
        · intro r2 hr2 hm2
          rcases List.mem_cons.mp hr2 with h2 | h2
          · subst h2; exact hhdr
          · exact hagree r2 h2 hm2
        · rw [hout]
          simp [hm]
      · exact absurd h (by simp)
    · next hm =>
      obtain ⟨hagree, hout⟩ := ih st0 out h
      refine ⟨?_, ?_⟩
      · intro r2 hr2 hm2
        rcases List.mem_cons.mp hr2 with h2 | h2
        · subst h2; exact absurd hm2 hm
        · exact hagree r2 h2 hm2
      · rw [hout]
        simp [hm]

theorem rowLoop_none_char (t : String × ℕ × String) (results : List ResultRecord) :
    ∀ out, rowLoop t results none = .ok out →
      (results.filter (matchesTriple t) = [] ∧ out = none) ∨
      (∃ r0 tl, results.filter (matchesTriple t) = r0 :: tl ∧
        (∀ r ∈ results, matchesTriple t r = true → hdrOf r = hdrOf r0) ∧
        out = some ⟨hdrOf r0, ((results.filter (matchesTriple t)).map cellOf).reverse⟩) := by
  induction results with
  | nil =>
    intro out h
    rw [rowLoop] at h
    cases h
    left; simp
  | cons r rest ih =>
    intro out h
    rw [rowLoop] at h
    split at h
    · next hm =>
      obtain ⟨hagree, hout⟩ := rowLoop_some_char t rest ⟨hdrOf r, [cellOf r]⟩ out h
      right
      refine ⟨r, rest.filter (matchesTriple t), by simp [hm], ?_, ?_⟩
      · intro r2 hr2 hm2
        rcases List.mem_cons.mp hr2 with h2 | h2
        · subst h2; rfl
        · exact hagree r2 h2 hm2
      · rw [hout]
        simp [hm]
    · next hm =>
      rcases ih out h with ⟨hf, ho⟩ | ⟨r0, tl, hf, hagree, ho⟩
      · left
        exact ⟨by simp [hm, hf], ho⟩
      · right
        refine ⟨r0, tl, by simp [hm, hf], ?_, ?_⟩
        · intro r2 hr2 hm2
          rcases List.mem_cons.mp hr2 with h2 | h2
          · subst h2; exact absurd hm2 hm
          · exact hagree r2 h2 hm2
        · rw [ho]
          simp [hm]

theorem rowLoop_error_assert (t : String × ℕ × String) (results : List ResultRecord) :
    ∀ st e, rowLoop t results st = .error e → e = .assertionError := by
  induction results with
  | nil =>
    intro st e h
    rw [rowLoop] at h
    exact absurd h (by simp)
  | cons r rest ih =>
    intro st e h
    cases st with
    | none =>
      rw [rowLoop] at h
      split at h
      · exact ih _ e h
      · exact ih _ e h
    | some st1 =>
      rw [rowLoop] at h
      split at h
      · split at h
        · exact ih _ e h
        · cases h; rfl
      · exact ih _ e h

theorem rowLoop_some_ok (t : String × ℕ × String) (results : List ResultRecord) :
    ∀ st0 : RowState,
      (∀ r ∈ results, matchesTriple t r = true → hdrOf r = st0.hdr) →
      ∃ out, rowLoop t results (some st0) = .ok out := by
  induction results with
  | nil => exact fun st0 _ => ⟨some st0, rfl⟩
  | cons r rest ih =>
    intro st0 h
    rw [rowLoop]
    by_cases hm : matchesTriple t r = true
    · rw [if_pos hm, if_pos (h r (by simp) hm)]
      exact ih ⟨st0.hdr, cellOf r :: st0.cells⟩ (fun r2 h2 hm2 => h r2 (by simp [h2]) hm2)
    · rw [if_neg hm]
      exact ih st0 (fun r2 h2 hm2 => h r2 (by simp [h2]) hm2)

theorem rowLoop_none_ok (t : String × ℕ × String) (results : List ResultRecord)
    (h : ∀ r1 ∈ results, ∀ r2 ∈ results,
      matchesTriple t r1 = true → matchesTriple t r2 = true → hdrOf r1 = hdrOf r2) :
    ∃ out, rowLoop t results none = .ok out := by
  induction results with
  | nil => exact ⟨none, rfl⟩
  | cons r rest ih =>
    rw [rowLoop]
    by_cases hm : matchesTriple t r = true
    · rw [if_pos hm]
      exact rowLoop_some_ok t rest ⟨hdrOf r, [cellOf r]⟩
        (fun r2 h2 hm2 => h r2 (by simp [h2]) r (by simp) hm2 hm)
    · rw [if_neg hm]
      exact ih (fun r1 h1 r2 h2 => h r1 (by simp [h1]) r2 (by simp [h2]))

theorem buildRow_ok_char (results : List ResultRecord) (dataKeys : List (ℤ × ℤ))
    (t : String × ℕ × String) (out : Option SummaryRow)
    (h : buildRow results dataKeys t = .ok out) :
    out = summaryRowFor results dataKeys t := by
  unfold buildRow at h
  cases hrl : rowLoop t results none with
  | error e => simp [hrl] at h
  | ok st =>
    rw [hrl] at h
    rcases rowLoop_none_char t results st hrl with ⟨hf, hst⟩ | ⟨r0, tl, hf, -, hst⟩
    · subst hst
      cases h
      rw [summaryRowFor, hf]
    · subst hst
      simp only at h
      split at h
      · cases h
        rw [summaryRowFor]
        rw [hf]
      · exact absurd h (by simp)

theorem buildRow_cases (results : List ResultRecord) (dataKeys : List (ℤ × ℤ))
    (t : String × ℕ × String)
    (hkeys : ∀ r ∈ results, matchesTriple t r = true → keyOf r ∈ dataKeys) :
    (∃ out, buildRow results dataKeys t = .ok out) ∨
      buildRow results dataKeys t = .error .assertionError := by
  unfold buildRow
  cases hrl : rowLoop t results none with
  | error e =>
    right
    rw [rowLoop_error_assert t results none e hrl]
  | ok st =>
    left
    rcases rowLoop_none_char t results st hrl with ⟨-, hst⟩ | ⟨r0, tl, hf, -, hst⟩
    · subst hst; exact ⟨none, rfl⟩
    · subst hst
      simp only
      rw [if_pos]
      · exact ⟨_, rfl⟩
      · rw [List.all_eq_true]
        intro kc hkc
        rw [List.mem_reverse] at hkc
        obtain ⟨r, hrm, hrc⟩ := List.mem_map.mp hkc
        obtain ⟨hrmem, hrmatch⟩ := List.mem_filter.mp hrm
        subst hrc
        exact decide_eq_true (hkeys r hrmem hrmatch)

theorem buildRow_assert_of_disagree (results : List ResultRecord) (dataKeys : List (ℤ × ℤ))
    (t : String × ℕ × String)
    (hd : ∃ r1 ∈ results, ∃ r2 ∈ results, matchesTriple t r1 = true ∧
      matchesTriple t r2 = true ∧ hdrOf r1 ≠ hdrOf r2) :
    buildRow results dataKeys t = .error .assertionError := by
  obtain ⟨r1, h1, r2, h2, hm1, hm2, hne⟩ := hd
  unfold buildRow
  cases hrl : rowLoop t results none with
  | error e =>
    rw [rowLoop_error_assert t results none e hrl]
  | ok st =>
    exfalso
    rcases rowLoop_none_char t results st hrl with ⟨hf, -⟩ | ⟨r0, tl, hf, hagree, -⟩
    · have := List.filter_eq_nil_iff.mp hf r1 h1
      exact this hm1
    · exact hne ((hagree r1 h1 hm1).trans (hagree r2 h2 hm2).symm)

theorem summaryRowsLoop_ok_char (results : List ResultRecord) (dataKeys : List (ℤ × ℤ)) :
    ∀ ts rows, summaryRowsLoop results dataKeys ts = .ok rows →
      rows = ts.map (summaryRowFor results dataKeys) := by
  intro ts
  induction ts with
  | nil =>
    intro rows h
    rw [summaryRowsLoop] at h
    cases h
    rfl
  | cons t ts2 ih =>
    intro rows h
    rw [summaryRowsLoop] at h
    cases hb : buildRow results dataKeys t with
    | error e => simp [hb] at h
    | ok row =>
      cases hl : summaryRowsLoop results dataKeys ts2 with
      | error e => simp [hb, hl] at h
      | ok rows2 =>
        simp only [hb, hl] at h
        cases h
        rw [List.map_cons, ← buildRow_ok_char results dataKeys t row hb, ih rows2 hl]

theorem summaryRowsLoop_ok_exists (results : List ResultRecord) (dataKeys : List (ℤ × ℤ)) :
    ∀ ts, (∀ t ∈ ts, ∃ out, buildRow results dataKeys t = .ok out) →
      ∃ rows, summaryRowsLoop results dataKeys ts = .ok rows := by
  intro ts
  induction ts with
  | nil => exact fun _ => ⟨[], rfl⟩
  | cons t ts2 ih =>
    intro h
    obtain ⟨out, hout⟩ := h t (by simp)
    obtain ⟨rows2, hrows⟩ := ih (fun t2 h2 => h t2 (by simp [h2]))
    exact ⟨out :: rows2, by rw [summaryRowsLoop, hout, hrows]⟩

theorem summaryRowsLoop_assert (results : List ResultRecord) (dataKeys : List (ℤ × ℤ)) :
    ∀ ts, (∀ t ∈ ts, (∃ out, buildRow results dataKeys t = .ok out) ∨
        buildRow results dataKeys t = .error .assertionError) →
      (∃ t ∈ ts, buildRow results dataKeys t = .error .assertionError) →
      summaryRowsLoop results dataKeys ts = .error .assertionError := by
  intro ts
  induction ts with
  | nil =>
    intro _ hex
    simp at hex
  | cons t ts2 ih =>
    intro hall hex
    rw [summaryRowsLoop]
    cases hb : buildRow results dataKeys t with
    | error e =>
      have h4 : e = .assertionError := by
        rcases hall t (by simp) with ⟨out, hout⟩ | hassert
        · rw [hout] at hb; exact absurd hb (by simp)
        · have h3 := hb.symm.trans hassert
          injection h3
      rw [h4]
    | ok row =>
      have hex2 : ∃ t2 ∈ ts2, buildRow results dataKeys t2 = .error .assertionError := by
        obtain ⟨t2, ht2, hb2⟩ := hex
        rcases List.mem_cons.mp ht2 with he | he
        · subst he; rw [hb2] at hb; exact absurd hb (by simp)
        · exact ⟨t2, he, hb2⟩
      rw [ih (fun t2 h2 => hall t2 (by simp [h2])) hex2]

theorem matchesTriple_eq (t : String × ℕ × String) (r : ResultRecord) :
    matchesTriple t r = true ↔
      (r.model_name = t.1 ∧ r.inputs = t.2.1 ∧ r.engine = t.2.2) := by
  simp [matchesTriple, Bool.and_eq_true, and_assoc]

theorem buildRow_ok_of_agree (results : List ResultRecord) (dataKeys : List (ℤ × ℤ))
    (t : String × ℕ × String)
    (hkeys : ∀ r ∈ results, matchesTriple t r = true → keyOf r ∈ dataKeys)
    (hagree : ∀ r1 ∈ results, ∀ r2 ∈ results,
      matchesTriple t r1 = true → matchesTriple t r2 = true → hdrOf r1 = hdrOf r2) :
    ∃ out, buildRow results dataKeys t = .ok out := by
  obtain ⟨st, hst⟩ := rowLoop_none_ok t results hagree
  unfold buildRow
  rw [hst]
  rcases rowLoop_none_char t results st hst with ⟨-, hstn⟩ | ⟨r0, tl, hf, -, hstn⟩
  · subst hstn; exact ⟨none, rfl⟩
  · subst hstn
    simp only
    rw [if_pos]
    · exact ⟨_, rfl⟩
    · rw [List.all_eq_true]
      intro kc hkc
      rw [List.mem_reverse] at hkc
      obtain ⟨r, hrm, hrc⟩ := List.mem_map.mp hkc
      obtain ⟨hrmem, hrmatch⟩ := List.mem_filter.mp hrm
      subst hrc
      exact decide_eq_true (hkeys r hrmem hrmatch)

/-- C2 (amended): the summary report contains exactly one row for EVERY
triple in configured models × the fixed set {1, 2, 3} × configured
engines, in that iteration order — a triple with no matching
ResultRecord still gets a row, written with all fields blank — and a
triple with matching records gets a populated row. The input-count
grouping is the hard-coded [1, 2, 3], independent of the configured
input_counts. -/
theorem summary_rows_per_triple (results : List ResultRecord) (models engines : List String)
    (batchSizes seqLens : List ℤ) (rows : List (Option SummaryRow))
    (h : output_summary results models engines batchSizes seqLens = .ok rows) :
    rows = (summaryTriples models engines).map
        (summaryRowFor results (summaryDataKeys batchSizes seqLens)) ∧
    ∀ t, (summaryRowFor results (summaryDataKeys batchSizes seqLens) t).isSome = true ↔
        ∃ r ∈ results, matchesTriple t r = true := by
  refine ⟨summaryRowsLoop_ok_char _ _ _ rows h, ?_⟩
  intro t
  cases hf : results.filter (matchesTriple t) with
  | nil =>
    rw [summaryRowFor, hf]
    simp only [Option.isSome_none, Bool.false_eq_true, false_iff]
    rintro ⟨r, hr, hm⟩
    exact (List.filter_eq_nil_iff.mp hf r hr) hm
  | cons r0 tl =>
    rw [summaryRowFor, hf]
    simp only [Option.isSome_some, true_iff]
    have hr0 : r0 ∈ results.filter (matchesTriple t) := by rw [hf]; simp
    obtain ⟨hmem, hmatch⟩ := List.mem_filter.mp hr0
    exact ⟨r0, hmem, hmatch⟩

/-- A concrete result record: model "gpt2", 1 input, onnxruntime. -/
def exRecord : ResultRecord :=
  ⟨"onnxruntime", "1.4.0", "cpu", some false, false, "gpt2", 1, 1, 8,
    ⟨1, 0, 1000, 1000, 1000, 1000, 1⟩⟩

/-- Counterexample to C2 as stated: with one collected record (for the
triple ("gpt2", 1, "onnxruntime")), one model, one engine, the summary
holds THREE rows — the row writing is unconditional, so the triples
("gpt2", 2, "onnxruntime") and ("gpt2", 3, "onnxruntime"), for which no
ResultRecord exists, still each produce an (all-blank) row. -/
theorem summary_rows_counterexample :
    output_summary [exRecord] ["gpt2"] ["onnxruntime"] [1] [8]
      = .ok [some ⟨⟨"gpt2", 1, "onnxruntime", "1.4.0", "cpu", false, some false⟩,
              [((1, 8), some 1000)]⟩, none, none] ∧
    ([some (⟨⟨"gpt2", 1, "onnxruntime", "1.4.0", "cpu", false, some false⟩,
        [((1, 8), some 1000)]⟩ : SummaryRow), none, none]).length = 3 := by
  constructor
  · rfl
  · rfl

/-- Witness for the amended C2: one record, one model, one engine:
three rows, one per element of the fixed input-count set {1,2,3}; the
first is populated (a record exists for input count 1), the others
blank. -/
theorem summary_rows_per_triple_witness :
    ([some (⟨⟨"gpt2", 1, "onnxruntime", "1.4.0", "cpu", false, some false⟩,
        [((1, 8), some 1000)]⟩ : SummaryRow), none, none]
      = (summaryTriples ["gpt2"] ["onnxruntime"]).map
          (summaryRowFor [exRecord] (summaryDataKeys [1] [8]))) ∧
    ∀ t, (summaryRowFor [exRecord] (summaryDataKeys [1] [8]) t).isSome = true ↔
        ∃ r ∈ [exRecord], matchesTriple t r = true :=
  summary_rows_per_triple [exRecord] ["gpt2"] ["onnxruntime"] [1] [8] _ rfl

/-- C9: within one summary row, records disagreeing on any identifying
field make report generation stop with the assertion error; when all
records of a triple agree on the identifying fields (the data-model
invariant), the assertion never fires and the report is produced. -/
theorem summary_header_assertion (results : List ResultRecord) (models engines : List String)
    (batchSizes seqLens : List ℤ)
    (hkeys : ∀ r ∈ results, keyOf r ∈ summaryDataKeys batchSizes seqLens) :
    ((∃ t ∈ summaryTriples models engines, ∃ r1 ∈ results, ∃ r2 ∈ results,
        matchesTriple t r1 = true ∧ matchesTriple t r2 = true ∧ hdrOf r1 ≠ hdrOf r2) →
      output_summary results models engines batchSizes seqLens = .error .assertionError) ∧
    ((∀ r1 ∈ results, ∀ r2 ∈ results, r1.model_name = r2.model_name →
        r1.inputs = r2.inputs → r1.engine = r2.engine → hdrOf r1 = hdrOf r2) →
      ∃ rows, output_summary results models engines batchSizes seqLens = .ok rows) := by
  constructor
  · rintro ⟨t, ht, r1, h1, r2, h2, hm1, hm2, hne⟩
    apply summaryRowsLoop_assert
    · intro t2 _
      exact buildRow_cases results _ t2 (fun r hr _ => hkeys r hr)
    · exact ⟨t, ht, buildRow_assert_of_disagree results _ t ⟨r1, h1, r2, h2, hm1, hm2, hne⟩⟩
  · intro hagree
    apply summaryRowsLoop_ok_exists
    intro t _
    apply buildRow_ok_of_agree results _ t (fun r hr _ => hkeys r hr)
    intro r1 hr1 r2 hr2 hm1 hm2
    obtain ⟨hm1a, hm1b, hm1c⟩ := (matchesTriple_eq t r1).mp hm1
    obtain ⟨hm2a, hm2b, hm2c⟩ := (matchesTriple_eq t r2).mp hm2
    exact hagree r1 hr1 r2 hr2 (hm1a.trans hm2a.symm) (hm1b.trans hm2b.symm)
      (hm1c.trans hm2c.symm)

/-- Same record as `exRecord` but claiming a different engine version —
an identifying-field disagreement within one summary row. -/
def exRecord2 : ResultRecord :=
  ⟨"onnxruntime", "1.3.0", "cpu", some false, false, "gpt2", 1, 1, 8,
    ⟨1, 0, 1000, 1000, 1000, 1000, 1⟩⟩

/-- Witness for C9: two records of the same triple with different
version strings abort summary generation with the assertion error,
while a consistent record set produces the report. -/
theorem summary_header_assertion_witness :
    output_summary [exRecord, exRecord2] ["gpt2"] ["onnxruntime"] [1] [8]
        = .error .assertionError ∧
      ∃ rows, output_summary [exRecord] ["gpt2"] ["onnxruntime"] [1] [8] = .ok rows :=
  ⟨(summary_header_assertion [exRecord, exRecord2] ["gpt2"] ["onnxruntime"] [1] [8]
      (by decide)).1
      ⟨("gpt2", 1, "onnxruntime"), by decide, exRecord, by simp, exRecord2, by simp,
        by decide, by decide, by decide⟩,
    (summary_header_assertion [exRecord] ["gpt2"] ["onnxruntime"] [1] [8] (by decide)).2
      (by
        intro r1 h1 r2 h2 _ _ _
        rw [List.mem_singleton] at h1 h2
        subst h1; subst h2; rfl)⟩

/- ### C5 / C8: fusion report and exit behaviour -/

/-- The data columns `output_fusion_statistics` declares: the pass names
of the first recorded model (not a union across models). -/
def fusionCols (stats : List (String × List (String × ℕ))) : List String :=
  match stats with
  | [] => []
  | (_, d0) :: _ => d0.map Prod.fst

theorem fusionRowsLoop_ok_char (cols : List String) :
    ∀ stats rows, fusionRowsLoop cols stats = .ok rows →
      rows = stats.map (fun e => ⟨e.1, cols.map (fun c => (c, e.2.lookup c))⟩) ∧
      ∀ e ∈ stats, ∀ kc ∈ e.2, kc.1 ∈ cols := by
  intro stats
  induction stats with
  | nil =>
    intro rows h
    rw [fusionRowsLoop] at h
    cases h
    exact ⟨rfl, by simp⟩
  | cons e rest ih =>
    obtain ⟨f, d⟩ := e
    intro rows h
    rw [fusionRowsLoop] at h
    split at h
    · next hall =>
      cases hl : fusionRowsLoop cols rest with
      | error e2 => simp [hl] at h
      | ok rows2 =>
        simp only [hl] at h
        cases h
        obtain ⟨hchar, hsub⟩ := ih rows2 hl
        refine ⟨by rw [List.map_cons, hchar], ?_⟩
        intro e2 he2 kc hkc
        rcases List.mem_cons.mp he2 with h2 | h2
        · subst h2
          have := List.all_eq_true.mp hall kc hkc
          exact of_decide_eq_true this
        · exact hsub e2 h2 kc hkc
    · exact absurd h (by simp)

theorem fusionRowsLoop_ok_exists (cols : List String) :
    ∀ stats, (∀ e ∈ stats, ∀ kc ∈ e.2, kc.1 ∈ cols) →
      ∃ rows, fusionRowsLoop cols stats = .ok rows := by
  intro stats
  induction stats with
  | nil => exact fun _ => ⟨[], rfl⟩
  | cons e rest ih =>
    obtain ⟨f, d⟩ := e
    intro h
    obtain ⟨rows2, hrows⟩ := ih (fun e2 h2 => h e2 (by simp [h2]))
    have hall : (d.all fun kc => decide (kc.1 ∈ cols)) = true := by
      rw [List.all_eq_true]
      intro kc hkc
      exact decide_eq_true (h (f, d) (by simp) kc hkc)
    exact ⟨⟨f, cols.map (fun c => (c, d.lookup c))⟩ :: rows2,
      by rw [fusionRowsLoop, if_pos hall, hrows]⟩

/-- C5 (amended): a successfully written fusion report has one row per
recorded produced-model file (in recording order) and its data columns
are the pass names of the FIRST recorded model — which coincide with the
union of pass names observed across all recorded models exactly because
a later model with a pass name outside the first model's set makes the
report writer raise an error instead. The report is written iff the
statistics mapping is non-empty. -/
theorem fusion_report_shape :
    (∀ stats rows, output_fusion_statistics stats = .ok rows →
      rows.map FusionRow.model_filename = stats.map Prod.fst ∧
      (∀ row ∈ rows, row.cells.map Prod.fst = fusionCols stats) ∧
      (∀ k, k ∈ fusionCols stats ↔ ∃ e ∈ stats, k ∈ e.2.map Prod.fst)) ∧
    (∀ stats (results : List ResultRecord) o, mainReport stats results = .ok o →
      (o.fusionWritten = true ↔ stats ≠ [])) := by
  constructor
  · intro stats rows h
    cases stats with
    | nil => rw [output_fusion_statistics] at h; exact absurd h (by simp)
    | cons e rest =>
      obtain ⟨f0, d0⟩ := e
      rw [output_fusion_statistics] at h
      obtain ⟨hchar, hsub⟩ := fusionRowsLoop_ok_char (d0.map Prod.fst) ((f0, d0) :: rest) rows h
      subst hchar
      refine ⟨by simp, ?_, ?_⟩
      · intro row hrow
        obtain ⟨e2, -, he2⟩ := List.mem_map.mp hrow
        subst he2
        simp [fusionCols]
      · intro k
        constructor
        · intro hk
          exact ⟨(f0, d0), by simp, hk⟩
        · rintro ⟨e2, he2, hk⟩
          obtain ⟨kc, hkc, hkce⟩ := List.mem_map.mp hk
          subst hkce
          exact hsub e2 he2 kc hkc
  · intro stats results o h
    cases stats with
    | nil =>
      rw [mainReport] at h
      split at h
      · split at h <;> (cases h; simp)
      · simp at *
    | cons e rest =>
      rw [mainReport] at h
      split at h
      · simp at *
      · cases hf : output_fusion_statistics (e :: rest) with
        | error e2 => rw [hf] at h; exact absurd h (by simp)
        | ok rows =>
          rw [hf] at h
          simp only at h
          split at h <;> (cases h; simp)

/-- Two recorded models with different pass-name sets: the written
columns are only the first model's, and the second row raises. -/
def exStats2 : List (String × List (String × ℕ)) :=
  [("m1.onnx", [("FusedGelu", 1)]), ("m2.onnx", [("FusedAttention", 2)])]

/-- Counterexample to C5 as stated: the data columns are NOT the union
of pass names observed across all recorded models — they are the first
model's pass names only, and a second model whose pass name
"FusedAttention" is outside that set makes the report writer raise
`ValueError` rather than widen the columns. -/
theorem fusion_union_counterexample :
    output_fusion_statistics exStats2 = .error .valueError ∧
      "FusedAttention" ∈ exStats2.flatMap (fun e => e.2.map Prod.fst) ∧
      "FusedAttention" ∉ fusionCols exStats2 :=
  ⟨rfl, by decide, by decide⟩

/-- One recorded model with one fused-operator count. -/
def exStats1 : List (String × List (String × ℕ)) := [("m1.onnx", [("FusedGelu", 1)])]

/-- Witness for the amended C5 on `exStats1`. -/
theorem fusion_report_shape_witness :
    (([⟨"m1.onnx", [("FusedGelu", some 1)]⟩] : List FusionRow).map FusionRow.model_filename
        = exStats1.map Prod.fst ∧
      (∀ row ∈ ([⟨"m1.onnx", [("FusedGelu", some 1)]⟩] : List FusionRow),
        row.cells.map Prod.fst = fusionCols exStats1) ∧
      (∀ k, k ∈ fusionCols exStats1 ↔ ∃ e ∈ exStats1, k ∈ e.2.map Prod.fst)) ∧
    ((⟨true, false, false, true⟩ : MainOutcome).fusionWritten = true ↔ exStats1 ≠ []) :=
  ⟨fusion_report_shape.1 exStats1 _ rfl, fusion_report_shape.2 exStats1 [] _ rfl⟩

/-- C8: a run with zero ResultRecords logs the warning and writes
neither the detail nor the summary file; a run with a non-empty
optimization-statistics mapping writes the fusion report regardless of
whether any records exist. -/
theorem exit_behaviour (stats : List (String × List (String × ℕ))) (results : List ResultRecord)
    (hok : stats = [] ∨ ∃ rows, output_fusion_statistics stats = .ok rows) :
    (results = [] → ∃ o, mainReport stats results = .ok o ∧ o.warnedNoResults = true ∧
        o.detailWritten = false ∧ o.summaryWritten = false) ∧
    (stats ≠ [] → ∃ o, mainReport stats results = .ok o ∧ o.fusionWritten = true) := by
  rcases hok with hnil | ⟨rows, hrows⟩
  · subst hnil
    constructor
    · intro hres
      subst hres
      exact ⟨⟨false, false, false, true⟩, rfl, rfl, rfl, rfl⟩
    · intro hne
      exact absurd rfl hne
  · have hne : stats ≠ [] := by
      intro hnil
      subst hnil
      rw [output_fusion_statistics] at hrows
      exact absurd hrows (by simp)
    cases stats with
    | nil => exact absurd rfl hne
    | cons e rest =>
      constructor
      · intro hres
        subst hres
        exact ⟨⟨true, false, false, true⟩, by simp [mainReport, hrows], rfl, rfl, rfl⟩
      · intro _
        cases results with
        | nil => exact ⟨⟨true, false, false, true⟩, by simp [mainReport, hrows], rfl⟩
        | cons r rs => exact ⟨⟨true, true, true, false⟩, by simp [mainReport, hrows], rfl⟩

/-- Witness for C8: one recorded optimization and zero results — the
warning fires, detail/summary are not written, the fusion report is. -/
theorem exit_behaviour_witness :
    (∃ o, mainReport exStats1 [] = .ok o ∧ o.warnedNoResults = true ∧
        o.detailWritten = false ∧ o.summaryWritten = false) ∧
    (∃ o, mainReport exStats1 [] = .ok o ∧ o.fusionWritten = true) :=
  ⟨(exit_behaviour exStats1 [] (Or.inr ⟨_, rfl⟩)).1 rfl,
    (exit_behaviour exStats1 [] (Or.inr ⟨_, rfl⟩)).2 (by simp [exStats1])⟩
